import Mathlib

/-!
Verification of the urlencoded body-decoding stage (`src/lib/urlencoded.js`).

The development shallowly embeds the decoding pipeline: the parameter
counter, the two query decoders (extended/`qs` and simple/`querystring`),
construction-time option validation, charset resolution, the eligibility
gate (`checkParse`) and the per-request orchestrator built by
`createReader`.

External collaborators (the `qs`/`querystring` parsers, `type-is`
classification, `content-type` header parsing, and the `xprezzo-raw-body`
streaming reader) are out of scope of the repository; their observable
results are modelled as explicit data: a decoded mapping is represented by
the exact delegation that produces it, classification results are fields
of the request model, and the reader's acquisition outcome is an input.
-/

/-- A JavaScript number, at the granularity the option handling needs:
`NaN`, the two infinities, and finite values (integral, which is the only
granularity the claims exercise). -/
inductive JSNum where
  | nan
  | posInf
  | negInf
  | fin (n : Int)
deriving DecidableEq

/-- JavaScript `isNaN` on a number. -/
def jsIsNaN : JSNum → Bool
  | .nan => true
  | _ => false

/-- JavaScript `isFinite` on a number. -/
def jsIsFinite : JSNum → Bool
  | .fin _ => true
  | _ => false

/-- JavaScript `x < 1` on a number (`NaN < 1` is false). -/
def jsLtOne : JSNum → Bool
  | .nan => false
  | .posInf => false
  | .negInf => true
  | .fin n => n < 1

/-- JavaScript `ToInt32`, the coercion performed by `n | 0` on a finite
number: reduce modulo 2^32 into the signed 32-bit range. -/
def toInt32 (n : Int) : Int :=
  (n + 2 ^ 31) % 2 ^ 32 - 2 ^ 31

/-- JavaScript `n | 0` on a `JSNum`: finite values are truncated to 32-bit
signed; the source only applies it under an `isFinite` guard, so the
non-finite branches are never reached there. -/
def jsOrZero : JSNum → JSNum
  | .fin n => .fin (toInt32 n)
  | x => x

/-- JavaScript strict equality `count === limit` between the running
separator count (a nonnegative integer) and the configured limit
(`NaN === x` and `Infinity === count` are false for any finite count). -/
def countEqLimit (count : Nat) : JSNum → Bool
  | .fin n => (count : Int) == n
  | _ => false

/-- Number of `&` field separators in a body (specification-side count,
used to state properties of `parameterCount`). -/
def countSep : List Char → Nat
  | [] => 0
  | c :: rest => (if c = '&' then 1 else 0) + countSep rest

/-- Loop of `parameterCount` (src/lib/urlencoded.js:180-194): the
`indexOf`-driven scan visits the separators left to right, increments
`count` at each one and returns the sentinel (`undefined`, here `none`)
the instant `count === limit`. -/
def parameterCountAux : List Char → JSNum → Nat → Option Nat
  | [], _, count => some count
  | c :: rest, limit, count =>
    if c = '&' then
      if countEqLimit (count + 1) limit then none
      else parameterCountAux rest limit (count + 1)
    else parameterCountAux rest limit count

/-- The scan `parameterCount(body, limit)` (src/lib/urlencoded.js:180-194). -/
def parameterCount (body : List Char) (limit : JSNum) : Option Nat :=
  parameterCountAux body limit 0

/-- Options record passed to `qs.parse` by the extended decoder
(src/lib/urlencoded.js:148-153). -/
structure QsOpts where
  allowPrototypes : Bool
  arrayLimit : Int
  depth : JSNum
  parameterLimit : JSNum
deriving DecidableEq

/-- Options record passed to `querystring.parse` by the simple decoder
(src/lib/urlencoded.js:258). -/
structure QuerystringOpts where
  maxKeys : JSNum
deriving DecidableEq

/-- A decoded body. The external key-value parsers are out of scope, so a
mapping is represented by the delegation that produces it: either the
literal empty object `{}` (the fast paths), or a call to `qs.parse` /
`querystring.parse` with the body and the exact options the source
passes. -/
inductive Mapping where
  | emptyMap
  | qsParse (body : List Char) (opts : QsOpts)
  | querystringParse (body : List Char) (opts : QuerystringOpts)
deriving DecidableEq

/-- A classified request error built by `createError(status, message,
props)`: numeric status, message string, machine-readable `type` kind and
the optional offending-charset field. -/
structure HttpError where
  status : Nat
  message : String
  type : String
  charset : Option String := none
deriving DecidableEq

/-- JavaScript `toLowerCase` at the ASCII granularity charset values
need, as a structurally recursive map over the characters. -/
def jsToLower (s : String) : String :=
  String.mk (s.data.map Char.toLower)

/-- JavaScript `toUpperCase` at the ASCII granularity charset values
need. -/
def jsToUpper (s : String) : String :=
  String.mk (s.data.map Char.toUpper)

/-- The 413 error thrown on parameter-count overflow
(src/lib/urlencoded.js:140-142 and 252-254). -/
def paramsTooManyError : HttpError :=
  { status := 413, message := "too many parameters", type := "parameters.too.many" }

/-- The 415 error produced by `checkParse` for an unsupported charset
(src/lib/urlencoded.js:51-54). -/
def charsetError (charset : String) : HttpError :=
  { status := 415
    message := "unsupported charset \"" ++ jsToUpper charset ++ "\""
    type := "charset.unsupported"
    charset := some charset }

/-- The `queryparse` closure returned by `extendedparser`
(src/lib/urlencoded.js:135-154), with `parameterLimit` already validated
and coerced at construction time. A thrown error is an `Except.error`. -/
def extendedQueryparse (parameterLimit : JSNum) (body : List Char) :
    Except HttpError Mapping :=
  match parameterCount body parameterLimit with
  | none => .error paramsTooManyError
  | some paramCount =>
    .ok (.qsParse body
      { allowPrototypes := true
        arrayLimit := max 100 (paramCount : Int)
        depth := .posInf
        parameterLimit := parameterLimit })

/-- The `queryparse` closure returned by `simpleparser`
(src/lib/urlencoded.js:247-259). -/
def simpleQueryparse (parameterLimit : JSNum) (body : List Char) :
    Except HttpError Mapping :=
  match parameterCount body parameterLimit with
  | none => .error paramsTooManyError
  | some _ => .ok (.querystringParse body { maxKeys := parameterLimit })

/-- The `parameterLimit` handling shared verbatim by `extendedparser` and
`simpleparser` (src/lib/urlencoded.js:122-133 and 234-245): default to
1000 when the option is `undefined`, throw a `TypeError` when `isNaN` or
below 1, and truncate finite values with `| 0`. -/
def validateParameterLimit (plOpt : Option JSNum) : Except String JSNum :=
  let parameterLimit := plOpt.getD (.fin 1000)
  if jsIsNaN parameterLimit || jsLtOne parameterLimit then
    .error "option parameterLimit must be a positive number"
  else if jsIsFinite parameterLimit then
    .ok (jsOrZero parameterLimit)
  else
    .ok parameterLimit

/-- The value supplied for the `verify` option, classified by what the
construction-time checks observe: the literal `false`, a function, some
other truthy value, or some other falsy value (`0`, `""`, `null`, `NaN`).
An absent option is `Option.none` at the use site. -/
inductive VerifyVal where
  | vFalse
  | vFunc
  | vTruthyOther
  | vFalsyOther
deriving DecidableEq

/-- JavaScript truthiness of a `verify` value. -/
def VerifyVal.truthy : VerifyVal → Bool
  | .vFalse => false
  | .vFunc => true
  | .vTruthyOther => true
  | .vFalsyOther => false

/-- The coercion `opts.verify || false` (src/lib/urlencoded.js:95). -/
def jsOrFalseVerify : Option VerifyVal → VerifyVal
  | some v => if v.truthy then v else .vFalse
  | none => .vFalse

/-- The value supplied for the `limit` option: a number or a string with a
unit suffix. -/
inductive LimitVal where
  | numLimit (n : Int)
  | strLimit (s : String)
deriving DecidableEq

/-- The resolved size limit. `bytes.parse` is an external collaborator, so
the string branch is kept symbolic as the argument the source passes to
it. -/
inductive SizeLimit where
  | bytesOf (arg : String)
  | rawNum (n : Int)
deriving DecidableEq

/-- The assignment `opts.parsedLimit = typeof opts.limit !== 'number' ?
bytes.parse(opts.limit || '100kb') : opts.limit`
(src/lib/urlencoded.js:90-92). An absent or empty-string limit is falsy,
so `bytes.parse` receives `'100kb'`. -/
def parsedLimitOf : Option LimitVal → SizeLimit
  | some (.numLimit n) => .rawNum n
  | some (.strLimit s) => .bytesOf (if s = "" then "100kb" else s)
  | none => .bytesOf "100kb"

/-- The value supplied for the `type` option: a media-type string or a
predicate (the predicate itself is external user code). -/
inductive TypeOpt where
  | typeStr (s : String)
  | typePred
deriving DecidableEq

/-- The assignment `opts.parsedType = opts.type || 'application/x-www-form-urlencoded'`
(src/lib/urlencoded.js:94), with the empty string falsy. -/
def parsedTypeOf : Option TypeOpt → TypeOpt
  | some (.typeStr s) =>
    if s = "" then .typeStr "application/x-www-form-urlencoded" else .typeStr s
  | some .typePred => .typePred
  | none => .typeStr "application/x-www-form-urlencoded"

/-- The recognized construction options (absent fields are `none`,
mirroring `undefined`). -/
structure Options where
  limit : Option LimitVal := none
  inflate : Option Bool := none
  type : Option TypeOpt := none
  verify : Option VerifyVal := none
  extended : Option Bool := none
  parameterLimit : Option JSNum := none

/-- The per-instance record stored by the constructor in the `prop`
WeakMap (src/lib/urlencoded.js:90-110): parsed options plus the selected
`queryparse` closure. -/
structure BuiltOpts where
  parsedLimit : SizeLimit
  parsedInflate : Bool
  parsedType : TypeOpt
  parsedVerify : VerifyVal
  queryparse : List Char → Except HttpError Mapping

/-- The factory `extendedparser(opts)` (src/lib/urlencoded.js:121-155): validate and
coerce `parameterLimit`, then return the extended `queryparse` closure
over `qs.parse`. -/
def extendedparser (o : Options) :
    Except String (List Char → Except HttpError Mapping) :=
  (validateParameterLimit o.parameterLimit).map extendedQueryparse

/-- The factory `simpleparser(opts)` (src/lib/urlencoded.js:233-260): identical
validation, returning the simple `queryparse` closure over
`querystring.parse`. -/
def simpleparser (o : Options) :
    Except String (List Char → Except HttpError Mapping) :=
  (validateParameterLimit o.parameterLimit).map simpleQueryparse

/-- Whether the constructor fires the `depd` deprecation notice:
`opts.extended === undefined` (src/lib/urlencoded.js:87-89). -/
def firesDeprecationNotice (o : Options) : Bool :=
  o.extended.isNone

/-- The `UrlencodedParser` constructor (src/lib/urlencoded.js:83-112):
parse the options, throw a `TypeError` when `verify` is truthy but not a
function, build the query parser selected by `extended !== false` (whose
factory throws on an invalid `parameterLimit`), and store the record. A
throw is an `Except.error`. -/
def UrlencodedParser (options : Options) : Except String BuiltOpts :=
  let opts := options
  let parsedVerify := jsOrFalseVerify opts.verify
  if parsedVerify ≠ .vFalse && parsedVerify ≠ .vFunc then
    .error "option verify must be function"
  else
    match (if opts.extended ≠ some false then extendedparser opts
           else simpleparser opts) with
    | .error e => .error e
    | .ok queryparse =>
      .ok { parsedLimit := parsedLimitOf opts.limit
            parsedInflate := opts.inflate ≠ some false
            parsedType := parsedTypeOf opts.type
            parsedVerify := parsedVerify
            queryparse := queryparse }

/-- The outcome of `contentType.parse(req)` on a request (external
collaborator): it throws when the content-type header is absent or
unparsable, otherwise yields the optional `charset` parameter. -/
inductive CTParse where
  | failed
  | parsed (charset : Option String)
deriving DecidableEq

/-- The request object, carrying the fields this stage reads and writes.
The results of the external classifiers are modelled as fields:
`hasBody` stands for `typeis.hasBody(req)` and `typeMatches` for
`self.shouldParse(req)` (the configured media-type check or user
predicate). `body` is `none` when the field is `undefined`. -/
structure Req where
  «_body» : Bool
  hasBody : Bool
  typeMatches : Bool
  ctParse : CTParse
  body : Option Mapping
deriving DecidableEq

/-- The helper `getCharset(req)` (src/lib/urlencoded.js:164-170): `undefined` (here
`none`) when `contentType.parse` throws, otherwise the lowercased charset
parameter with `undefined` replaced by the empty string. -/
def getCharset (req : Req) : Option String :=
  match req.ctParse with
  | .failed => none
  | .parsed cs => some (jsToLower (cs.getD ""))

/-- JavaScript `s || default` on the result of `getCharset`: `undefined`
and the empty string are falsy. -/
def jsOrString (s : Option String) (d : String) : String :=
  match s with
  | none => d
  | some s => if s = "" then d else s

/-- The resolution `getCharset(req) || 'utf-8'` (src/lib/urlencoded.js:63). -/
def resolveCharset (req : Req) : String :=
  jsOrString (getCharset req) "utf-8"

/-- What a middleware invocation passes to the continuation `next`. -/
inductive Next where
  | nextOk
  | nextErr (e : HttpError)
deriving DecidableEq

/-- The outcome of `checkParse` (src/lib/urlencoded.js:29-58),
distinguished by the branch taken (the source's `debug` lines): the three
eligibility skips call `next()` and return `false`, the charset failure
calls `next(err)` and returns `false`, and `proceed` returns `true`. -/
inductive CheckOutcome where
  | skipAlreadyParsed
  | skipEmptyBody
  | skipShouldNotParse
  | invalidCharset (charset : String)
  | proceed
deriving DecidableEq

/-- The `next` call a halting `checkParse` branch performs (`none` for
`proceed`, which calls nothing). -/
def CheckOutcome.nextCall : CheckOutcome → Option Next
  | .skipAlreadyParsed => some .nextOk
  | .skipEmptyBody => some .nextOk
  | .skipShouldNotParse => some .nextOk
  | .invalidCharset cs => some (.nextErr (charsetError cs))
  | .proceed => none

/-- The gate `checkParse(req, res, next, self, charset)`
(src/lib/urlencoded.js:29-58): the short-circuiting chain of
already-parsed, bodiless, media-type and charset checks.
`req.typeMatches` stands for `self.shouldParse(req)`. -/
def checkParse (req : Req) (charset : String) : CheckOutcome :=
  if req._body then .skipAlreadyParsed
  else if !req.hasBody then .skipEmptyBody
  else if !req.typeMatches then .skipShouldNotParse
  else if charset ≠ "utf-8" then .invalidCharset charset
  else .proceed

/-- The body-acquisition outcome for a request: what the external
streaming reader's read produced (a classified reader error, or the raw
body string). -/
inductive ReadOutcome where
  | failed (e : HttpError)
  | acquired (body : List Char)
deriving DecidableEq

/-- Modelled from the spec: the external streaming `Reader` collaborator
(`xprezzo-raw-body`), which is not part of this repository. Per the
spec's orchestrator contract, reader failures propagate to the error
continuation unchanged, a failure of the supplied parse callback is
routed to the error continuation without attaching anything, and on
success the callback's result is stored as the request body (marking the
request parsed) before the success continuation runs. The acquisition
itself is represented by the `outcome` argument. -/
def Reader (outcome : ReadOutcome)
    (parseFn : List Char → Except HttpError Mapping) (req : Req) :
    Req × Next :=
  match outcome with
  | .failed e => (req, .nextErr e)
  | .acquired body =>
    match parseFn body with
    | .error e => (req, .nextErr e)
    | .ok m => ({ req with body := some m, _body := true }, .nextOk)

/-- The middleware returned by `createReader` (src/lib/urlencoded.js:60-80):
resolve the charset, pre-initialize `req.body` with `req.body || {}`, run
`checkParse`, and when it proceeds hand the request to the `Reader` with
the callback `body => body.length ? self.queryparse(body) : {}`. -/
def createReader (self : BuiltOpts) (req : Req) (outcome : ReadOutcome) :
    Req × Next :=
  let charset := resolveCharset req
  let req1 : Req := { req with body := some (req.body.getD .emptyMap) }
  match checkParse req1 charset with
  | .proceed =>
    Reader outcome
      (fun body => if body.isEmpty then .ok .emptyMap else self.queryparse body)
      req1
  | outcome1 => (req1, (outcome1.nextCall).getD .nextOk)

/-- Whether a decode attempt produced a mapping. -/
def isOkResult : Except HttpError Mapping → Bool
  | .ok _ => true
  | .error _ => false

/-- Whether construction succeeded (no `TypeError` was thrown). -/
def ctorSucceeds : Except String BuiltOpts → Bool
  | .ok _ => true
  | .error _ => false

/-- Sample options with an extended decoder and ceiling 1, used to
instantiate hypothesised theorems at a concrete input. -/
def sampleOptsPL1 : Options :=
  { extended := some true, parameterLimit := some (.fin 1) }

/-- The instance the constructor builds from `sampleOptsPL1`. -/
def sampleBuiltPL1 : BuiltOpts :=
  { parsedLimit := .bytesOf "100kb"
    parsedInflate := true
    parsedType := .typeStr "application/x-www-form-urlencoded"
    parsedVerify := .vFalse
    queryparse := extendedQueryparse (.fin 1) }

/-- The instance the constructor builds from empty options. -/
def sampleBuiltDefault : BuiltOpts :=
  { parsedLimit := .bytesOf "100kb"
    parsedInflate := true
    parsedType := .typeStr "application/x-www-form-urlencoded"
    parsedVerify := .vFalse
    queryparse := extendedQueryparse (.fin 1000) }

/-- A sample decoded mapping, as attached by a previous invocation. -/
def sampleMapping : Mapping :=
  .qsParse ['a']
    { allowPrototypes := true, arrayLimit := 100
      depth := .posInf, parameterLimit := .fin 1000 }

/-- A sample classified error surfaced by the external reader. -/
def sampleReaderError : HttpError :=
  { status := 413, message := "request entity too large"
    type := "entity.too.large" }

/-- An already-parsed request whose declared charset is `latin1`. -/
def alreadyParsedLatin1Req : Req :=
  { _body := true, hasBody := true, typeMatches := true
    ctParse := .parsed (some "latin1"), body := none }

/-- An eligible request whose declared charset is `latin1`. -/
def eligibleLatin1Req : Req :=
  { _body := false, hasBody := true, typeMatches := true
    ctParse := .parsed (some "latin1"), body := none }

/-- An eligible request whose content-type header does not parse, so the
charset defaults to `utf-8`. -/
def eligibleNoHeaderReq : Req :=
  { _body := false, hasBody := true, typeMatches := true
    ctParse := .failed, body := none }

/-- The request `eligibleNoHeaderReq` after the `req.body = req.body || {}`
pre-initialization. -/
def eligibleNoHeaderReqInit : Req :=
  { eligibleNoHeaderReq with body := some .emptyMap }

/-- A request already carrying a decoded body. -/
def alreadyParsedReq : Req :=
  { _body := true, hasBody := true, typeMatches := true
    ctParse := .parsed (some "utf-8"), body := some sampleMapping }

/-!
Lemmas about the parameter counter.
-/

/-- Once the running count has reached (or passed) the limit without the
sentinel having fired, strict equality can never fire again: the scan
returns the total count. In particular a nonpositive limit never fires. -/
theorem parameterCountAux_of_le (body : List Char) (n : Int) :
    ∀ count : Nat, n ≤ count →
      parameterCountAux body (.fin n) count = some (count + countSep body) := by
  induction body with
  | nil =>
    intro count _
    simp [parameterCountAux, countSep]
  | cons c rest ih =>
    intro count h
    by_cases hc : c = '&'
    · have hne : countEqLimit (count + 1) (.fin n) = false := by
        simp only [countEqLimit, beq_eq_false_iff_ne, ne_eq]
        omega
      simp [parameterCountAux, hc, hne, ih (count + 1) (by omega), countSep]
      omega
    · simp [parameterCountAux, hc, ih count h, countSep]

/-- While the running count is strictly below the limit, the scan returns
the sentinel exactly when the separators remaining push the total count to
the limit or beyond, and the exact total otherwise. -/
theorem parameterCountAux_of_lt (body : List Char) (n : Int) :
    ∀ count : Nat, (count : Int) < n →
      parameterCountAux body (.fin n) count =
        if n ≤ ((count + countSep body : Nat) : Int) then none
        else some (count + countSep body) := by
  induction body with
  | nil =>
    intro count h
    simp only [parameterCountAux, countSep, Nat.add_zero]
    rw [if_neg (by omega)]
  | cons c rest ih =>
    intro count h
    by_cases hc : c = '&'
    · by_cases hhit : ((count + 1 : Nat) : Int) = n
      · have hyes : countEqLimit (count + 1) (.fin n) = true := by
          simp only [countEqLimit, beq_iff_eq]
          omega
        simp [parameterCountAux, hc, hyes]
        rw [if_pos (by simp [countSep]; omega)]
      · have hne : countEqLimit (count + 1) (.fin n) = false := by
          simp only [countEqLimit, beq_eq_false_iff_ne, ne_eq]
          omega
        simp [parameterCountAux, hc, hne, ih (count + 1) (by omega), countSep]
        rw [add_assoc, add_assoc]
    · simp [parameterCountAux, hc, ih count h, countSep]

/-- Running `parameterCount` with a positive finite limit: the sentinel fires
exactly when the body holds at least `limit` separators; otherwise the
exact separator count is returned. -/
theorem parameterCount_pos (body : List Char) (n : Int) (h : 1 ≤ n) :
    parameterCount body (.fin n) =
      if n ≤ (countSep body : Int) then none else some (countSep body) := by
  unfold parameterCount
  rw [parameterCountAux_of_lt body n 0 (by omega)]
  simp

/-- Running `parameterCount` with a nonpositive finite limit never returns the
sentinel: the limit is effectively unbounded. -/
theorem parameterCount_nonpos (body : List Char) (n : Int) (h : n ≤ 0) :
    parameterCount body (.fin n) = some (countSep body) := by
  unfold parameterCount
  rw [parameterCountAux_of_le body n 0 (by omega)]
  simp

/-- The coercion `toInt32` is the identity on the signed 32-bit range. -/
theorem toInt32_eq_self (n : Int) (h1 : -(2 ^ 31) ≤ n) (h2 : n < 2 ^ 31) :
    toInt32 n = n := by
  unfold toInt32
  rw [Int.emod_eq_of_lt (by omega) (by omega)]
  omega

/-- The coercion `toInt32` sends `2^31` to `-(2^31)`. -/
theorem toInt32_two_pow_31 : toInt32 (2 ^ 31) = -(2 ^ 31) := by decide

/-- The separator count of a run of `&` characters. -/
theorem countSep_replicate (n : Nat) :
    countSep (List.replicate n '&') = n := by
  induction n with
  | zero => simp [countSep, List.replicate]
  | succ k ih =>
    simp [countSep, List.replicate, ih]
    omega

/-- Unfolding of the extended decoder when the counter returns a count. -/
theorem extendedQueryparse_of_count (limit : JSNum) (body : List Char)
    (pc : Nat) (h : parameterCount body limit = some pc) :
    extendedQueryparse limit body =
      .ok (.qsParse body
        { allowPrototypes := true
          arrayLimit := max 100 (pc : Int)
          depth := .posInf
          parameterLimit := limit }) := by
  unfold extendedQueryparse
  rw [h]

/-- Unfolding of the extended decoder when the counter fires. -/
theorem extendedQueryparse_of_sentinel (limit : JSNum) (body : List Char)
    (h : parameterCount body limit = none) :
    extendedQueryparse limit body = .error paramsTooManyError := by
  unfold extendedQueryparse
  rw [h]

/-- Unfolding of the simple decoder when the counter returns a count. -/
theorem simpleQueryparse_of_count (limit : JSNum) (body : List Char)
    (pc : Nat) (h : parameterCount body limit = some pc) :
    simpleQueryparse limit body =
      .ok (.querystringParse body { maxKeys := limit }) := by
  unfold simpleQueryparse
  rw [h]

/-- Unfolding of the simple decoder when the counter fires. -/
theorem simpleQueryparse_of_sentinel (limit : JSNum) (body : List Char)
    (h : parameterCount body limit = none) :
    simpleQueryparse limit body = .error paramsTooManyError := by
  unfold simpleQueryparse
  rw [h]

/-!
Lemmas about the middleware's control paths.
-/

/-- On any of the three eligibility skips the middleware calls the
success continuation and only pre-initializes `req.body` with
`req.body || {}`. -/
theorem createReader_skip (self : BuiltOpts) (req : Req) (outcome : ReadOutcome)
    (h : req._body = true ∨ req.hasBody = false ∨ req.typeMatches = false) :
    createReader self req outcome =
      ({ req with body := some (req.body.getD .emptyMap) }, .nextOk) := by
  unfold createReader
  by_cases hb : req._body
  · simp [checkParse, hb, CheckOutcome.nextCall]
  · rcases h with h | h | h
    · exact absurd h hb
    · simp [checkParse, hb, h, CheckOutcome.nextCall]
    · by_cases hhas : req.hasBody
      · simp [checkParse, hb, hhas, h, CheckOutcome.nextCall]
      · simp [checkParse, hb, hhas, CheckOutcome.nextCall]

/-- On an eligible request with an unsupported charset the middleware
calls the error continuation with the 415 error and never reaches the
reader: the result is the same for every acquisition outcome. -/
theorem createReader_badCharset (self : BuiltOpts) (req : Req)
    (outcome : ReadOutcome)
    (h1 : req._body = false) (h2 : req.hasBody = true)
    (h3 : req.typeMatches = true) (h4 : resolveCharset req ≠ "utf-8") :
    createReader self req outcome =
      ({ req with body := some (req.body.getD .emptyMap) },
        .nextErr (charsetError (resolveCharset req))) := by
  unfold createReader
  simp [checkParse, h1, h2, h3, h4, CheckOutcome.nextCall]

/-- On an eligible request with an acceptable charset the middleware
hands the pre-initialized request to the reader with the
empty-body-fast-path callback. -/
theorem createReader_proceed (self : BuiltOpts) (req : Req)
    (outcome : ReadOutcome)
    (h1 : req._body = false) (h2 : req.hasBody = true)
    (h3 : req.typeMatches = true) (h4 : resolveCharset req = "utf-8") :
    createReader self req outcome =
      Reader outcome
        (fun body => if body.isEmpty then .ok .emptyMap
          else self.queryparse body)
        { req with body := some (req.body.getD .emptyMap) } := by
  unfold createReader
  simp [checkParse, h1, h2, h3, h4]

/-- On every error continuation the body field holds only the
pre-initialized `req.body || {}` placeholder, never a decoder result. -/
theorem createReader_error_no_attach (self : BuiltOpts) (req : Req)
    (outcome : ReadOutcome) (req' : Req) (e : HttpError)
    (h : createReader self req outcome = (req', .nextErr e)) :
    req'.body = some (req.body.getD .emptyMap) := by
  by_cases hske : req._body = true ∨ req.hasBody = false ∨ req.typeMatches = false
  · rw [createReader_skip self req outcome hske] at h
    exact absurd (congrArg Prod.snd h) (by simp)
  · push_neg at hske
    obtain ⟨hb, hhas, htm⟩ := hske
    have hb' : req._body = false := by simpa using hb
    have hhas' : req.hasBody = true := by simpa using hhas
    have htm' : req.typeMatches = true := by simpa using htm
    by_cases hcs : resolveCharset req = "utf-8"
    · rw [createReader_proceed self req outcome hb' hhas' htm' hcs] at h
      unfold Reader at h
      rcases outcome with e' | body
      · injection h with h1 h2
        rw [← h1]
      · by_cases hemp : body.isEmpty
        · simp [hemp] at h
        · simp only [hemp, Bool.false_eq_true, if_false] at h
          rcases hqp : self.queryparse body with e' | m
          · rw [hqp] at h
            injection h with h1 h2
            rw [← h1]
          · rw [hqp] at h
            injection h with h1 h2
            exact absurd h2 (by simp)
    · rw [createReader_badCharset self req outcome hb' hhas' htm' hcs] at h
      injection h with h1 h2
      rw [← h1]

/-!
The claims.
-/

/-- Claim C10: the finite `parameterLimit` coercion is 32-bit signed
truncation, so the finite value `2^31` passes the positivity validation
yet yields the effective ceiling `-(2^31)`: negative, different from the
configured value, and one the counter's sentinel can never hit — the
ceiling is effectively unbounded. -/
theorem C10_int32_truncation :
    validateParameterLimit (some (.fin (2 ^ 31))) = .ok (.fin (-(2 ^ 31)))
    ∧ (-(2 ^ 31) : Int) ≠ 2 ^ 31
    ∧ (-(2 ^ 31) : Int) < 0
    ∧ ∀ body : List Char,
        parameterCount body (.fin (-(2 ^ 31))) = some (countSep body) := by
  refine ⟨?_, by norm_num, by norm_num, ?_⟩
  · unfold validateParameterLimit
    norm_num [jsIsNaN, jsLtOne, jsIsFinite, jsOrZero, toInt32]
  · intro body
    exact parameterCount_nonpos body _ (by norm_num)

/-- Claim C1 is false as stated: `2^31` is a finite positive integer
ceiling, yet the extended decoder configured with it decodes a body
holding exactly `2^31` field separators successfully instead of failing
with the 413 `parameters.too.many` error, because construction truncates
the ceiling to `-(2^31)`. -/
theorem C1_ceiling_counterexample :
    countSep (List.replicate (2 ^ 31) '&') = 2 ^ 31
    ∧ extendedparser { parameterLimit := some (.fin (2 ^ 31)) }
        = .ok (extendedQueryparse (.fin (-(2 ^ 31))))
    ∧ extendedQueryparse (.fin (-(2 ^ 31))) (List.replicate (2 ^ 31) '&')
        = .ok (.qsParse (List.replicate (2 ^ 31) '&')
            { allowPrototypes := true
              arrayLimit := 2 ^ 31
              depth := .posInf
              parameterLimit := .fin (-(2 ^ 31)) }) := by
  refine ⟨countSep_replicate _, ?_, ?_⟩
  · unfold extendedparser validateParameterLimit
    norm_num [jsIsNaN, jsLtOne, jsIsFinite, jsOrZero, toInt32, Except.map]
  · have h := parameterCount_nonpos (List.replicate (2 ^ 31) '&')
      (-(2 ^ 31)) (by norm_num)
    rw [countSep_replicate] at h
    have hcast : ((2 ^ 31 : Nat) : Int) = 2 ^ 31 := by
      norm_cast
    have hmax : max (100 : Int) ((2 ^ 31 : Nat) : Int) = 2 ^ 31 := by
      rw [hcast, max_eq_right (by norm_num)]
    rw [extendedQueryparse_of_count _ _ _ h, hmax]

/-- Claim C1 (amended): for every configured ceiling `c` with
`1 ≤ c < 2^31` — the range on which the 32-bit coercion is the identity —
both factories build their decoder with effective ceiling `c`; on a body
with exactly `c` field separators each decoder fails with the 413
`parameters.too.many` error, producing no mapping; and on a body with
exactly `c - 1` separators neither decoder raises that error, the
parameter counter returning the exact count `c - 1`. -/
theorem C1_ceiling_amended (c : Nat) (body bodyUnder : List Char)
    (hc1 : 1 ≤ c) (hc2 : c < 2 ^ 31)
    (hb : countSep body = c) (hbu : countSep bodyUnder = c - 1) :
    (extendedparser { parameterLimit := some (.fin (c : Int)) }
        = .ok (extendedQueryparse (.fin (c : Int)))
      ∧ simpleparser { parameterLimit := some (.fin (c : Int)) }
        = .ok (simpleQueryparse (.fin (c : Int))))
    ∧ (extendedQueryparse (.fin (c : Int)) body = .error paramsTooManyError
      ∧ simpleQueryparse (.fin (c : Int)) body = .error paramsTooManyError)
    ∧ (parameterCount bodyUnder (.fin (c : Int)) = some (c - 1)
      ∧ isOkResult (extendedQueryparse (.fin (c : Int)) bodyUnder) = true
      ∧ isOkResult (simpleQueryparse (.fin (c : Int)) bodyUnder) = true) := by
  have hc1' : (1 : Int) ≤ (c : Int) := by exact_mod_cast hc1
  have hc2' : (c : Int) < 2 ^ 31 := by exact_mod_cast hc2
  have hval : validateParameterLimit (some (.fin (c : Int)))
      = .ok (.fin (c : Int)) := by
    have hlt : jsLtOne (.fin (c : Int)) = false := by
      simp [jsLtOne]
      omega
    have hco := toInt32_eq_self (c : Int)
      (le_trans (by norm_num) (Int.natCast_nonneg c)) hc2'
    simp [validateParameterLimit, jsIsNaN, hlt, jsIsFinite, jsOrZero, hco]
  have hover : parameterCount body (.fin (c : Int)) = none := by
    rw [parameterCount_pos body _ hc1', hb]
    simp
  have hunder : parameterCount bodyUnder (.fin (c : Int)) = some (c - 1) := by
    rw [parameterCount_pos bodyUnder _ hc1', hbu]
    rw [if_neg (by omega)]
  refine ⟨⟨?_, ?_⟩, ⟨?_, ?_⟩, hunder, ?_, ?_⟩
  · unfold extendedparser
    rw [hval]
    rfl
  · unfold simpleparser
    rw [hval]
    rfl
  · exact extendedQueryparse_of_sentinel _ _ hover
  · exact simpleQueryparse_of_sentinel _ _ hover
  · rw [extendedQueryparse_of_count _ _ _ hunder]
    rfl
  · rw [simpleQueryparse_of_count _ _ _ hunder]
    rfl

/-- The validation throws exactly when `isNaN(parameterLimit) ||
parameterLimit < 1`. -/
theorem validateParameterLimit_error (plOpt : Option JSNum)
    (h : (jsIsNaN (plOpt.getD (.fin 1000))
        || jsLtOne (plOpt.getD (.fin 1000))) = true) :
    validateParameterLimit plOpt =
      .error "option parameterLimit must be a positive number" := by
  unfold validateParameterLimit
  simp [h]

/-- When the validation passes, the factory keeps the (possibly coerced)
limit. -/
theorem validateParameterLimit_ok (plOpt : Option JSNum)
    (h : (jsIsNaN (plOpt.getD (.fin 1000))
        || jsLtOne (plOpt.getD (.fin 1000))) = false) :
    validateParameterLimit plOpt =
      .ok (if jsIsFinite (plOpt.getD (.fin 1000))
        then jsOrZero (plOpt.getD (.fin 1000))
        else plOpt.getD (.fin 1000)) := by
  unfold validateParameterLimit
  by_cases hf : jsIsFinite (plOpt.getD (.fin 1000)) <;> simp [h, hf]

/-- A truthy non-function `verify` makes the constructor throw. -/
theorem UrlencodedParser_verify_error (o : Options)
    (h : o.verify = some .vTruthyOther) :
    UrlencodedParser o = .error "option verify must be function" := by
  unfold UrlencodedParser
  simp [h, jsOrFalseVerify, VerifyVal.truthy]

/-- Any other `verify` value is coerced to `false` or kept as the
function, passing the check. -/
theorem verify_pass (o : Options) (h : o.verify ≠ some .vTruthyOther) :
    jsOrFalseVerify o.verify = .vFalse ∨ jsOrFalseVerify o.verify = .vFunc := by
  rcases hv : o.verify with _ | v
  · simp [jsOrFalseVerify]
  · rcases v <;> simp_all [jsOrFalseVerify, VerifyVal.truthy]

/-- Once the `verify` check passes, the constructor is the selected
factory followed by assembly of the instance record. -/
theorem UrlencodedParser_pass (o : Options)
    (h : o.verify ≠ some .vTruthyOther) :
    UrlencodedParser o =
      match (if o.extended ≠ some false then extendedparser o
             else simpleparser o) with
      | .error e => .error e
      | .ok qp =>
        .ok { parsedLimit := parsedLimitOf o.limit
              parsedInflate := o.inflate ≠ some false
              parsedType := parsedTypeOf o.type
              parsedVerify := jsOrFalseVerify o.verify
              queryparse := qp } := by
  unfold UrlencodedParser
  rcases verify_pass o h with h' | h' <;> simp [h']

/-- Characterization of a successfully constructed instance: the limit
validation succeeded and every field, including the selected `queryparse`
closure, is determined by the options. -/
theorem UrlencodedParser_built (o : Options) (b : BuiltOpts)
    (h : UrlencodedParser o = .ok b) :
    ∃ l, validateParameterLimit o.parameterLimit = .ok l
      ∧ b = { parsedLimit := parsedLimitOf o.limit
              parsedInflate := o.inflate ≠ some false
              parsedType := parsedTypeOf o.type
              parsedVerify := jsOrFalseVerify o.verify
              queryparse := if o.extended ≠ some false then extendedQueryparse l
                            else simpleQueryparse l } := by
  by_cases hvt : o.verify = some .vTruthyOther
  · rw [UrlencodedParser_verify_error o hvt] at h
    exact absurd h (by simp)
  · rw [UrlencodedParser_pass o hvt] at h
    rcases hval : validateParameterLimit o.parameterLimit with e | l
    · by_cases hext : o.extended ≠ some false
      · rw [if_pos hext] at h
        unfold extendedparser at h
        rw [hval] at h
        exact absurd h (by simp [Except.map])
      · rw [if_neg hext] at h
        unfold simpleparser at h
        rw [hval] at h
        exact absurd h (by simp [Except.map])
    · refine ⟨l, rfl, ?_⟩
      by_cases hext : o.extended ≠ some false
      · rw [if_pos hext] at h
        unfold extendedparser at h
        rw [hval] at h
        simp only [Except.map] at h
        injection h with h'
        rw [← h', if_pos hext]
      · rw [if_neg hext] at h
        unfold simpleparser at h
        rw [hval] at h
        simp only [Except.map] at h
        injection h with h'
        rw [← h', if_neg hext]

/-- The extended decoder's only per-request failure is the 413
`parameters.too.many` error. -/
theorem extendedQueryparse_error_kind (l : JSNum) (body : List Char)
    (e : HttpError) (h : extendedQueryparse l body = .error e) :
    e = paramsTooManyError := by
  rcases hpc : parameterCount body l with _ | pc
  · rw [extendedQueryparse_of_sentinel _ _ hpc] at h
    injection h with h'
    exact h'.symm
  · rw [extendedQueryparse_of_count _ _ _ hpc] at h
    exact absurd h (by simp)

/-- The simple decoder's only per-request failure is the 413
`parameters.too.many` error. -/
theorem simpleQueryparse_error_kind (l : JSNum) (body : List Char)
    (e : HttpError) (h : simpleQueryparse l body = .error e) :
    e = paramsTooManyError := by
  rcases hpc : parameterCount body l with _ | pc
  · rw [simpleQueryparse_of_sentinel _ _ hpc] at h
    injection h with h'
    exact h'.symm
  · rw [simpleQueryparse_of_count _ _ _ hpc] at h
    exact absurd h (by simp)

/-- Witness for C1's amended theorem at ceiling 2, a body with two
separators and a body with one. -/
theorem C1_ceiling_witness :
    (1 ≤ 2 ∧ 2 < 2 ^ 31
      ∧ countSep ['a', '&', '&'] = 2 ∧ countSep ['a', '&', 'b'] = 1)
    ∧ (extendedQueryparse (.fin 2) ['a', '&', '&'] = .error paramsTooManyError
      ∧ simpleQueryparse (.fin 2) ['a', '&', '&'] = .error paramsTooManyError)
    ∧ (parameterCount ['a', '&', 'b'] (.fin 2) = some 1
      ∧ isOkResult (extendedQueryparse (.fin 2) ['a', '&', 'b']) = true
      ∧ isOkResult (simpleQueryparse (.fin 2) ['a', '&', 'b']) = true) :=
  ⟨⟨by decide, by decide, by decide, by decide⟩,
    (C1_ceiling_amended 2 ['a', '&', '&'] ['a', '&', 'b']
      (by decide) (by decide) (by decide) (by decide)).2.1,
    (C1_ceiling_amended 2 ['a', '&', '&'] ['a', '&', 'b']
      (by decide) (by decide) (by decide) (by decide)).2.2⟩

/-- Claim C4 is false as stated: `verify: 0` (a falsy value other than the
literal `false`) is present, not `false`, and not callable, yet
construction succeeds, because `opts.verify || false` coerces every falsy
value to `false`; likewise `parameterLimit: Infinity` is not a finite
positive number yet passes the validation. -/
theorem C4_validation_counterexample :
    ctorSucceeds (UrlencodedParser { verify := some .vFalsyOther }) = true
    ∧ VerifyVal.vFalsyOther ≠ VerifyVal.vFalse
    ∧ VerifyVal.vFalsyOther ≠ VerifyVal.vFunc
    ∧ ctorSucceeds (UrlencodedParser { parameterLimit := some .posInf }) = true
    ∧ jsIsFinite .posInf = false :=
  ⟨rfl, by decide, by decide, rfl, rfl⟩

/-- Claim C4 (amended): construction raises a `TypeError` exactly when
`verify` is truthy and not callable (falsy `verify` values are coerced to
`false` and accepted), or when the defaulted `parameterLimit` is `NaN` or
less than 1 (the non-finite `Infinity` passes and acts as an unbounded
ceiling); and per-request decoding never performs this validation — a
constructed decoder's only per-request failure is the 413
`parameters.too.many` error. -/
theorem C4_validation_amended (o : Options) :
    (ctorSucceeds (UrlencodedParser o) = false ↔
      (o.verify = some .vTruthyOther
        ∨ jsIsNaN (o.parameterLimit.getD (.fin 1000)) = true
        ∨ jsLtOne (o.parameterLimit.getD (.fin 1000)) = true))
    ∧ (∀ b, UrlencodedParser o = .ok b →
        ∀ body e, b.queryparse body = .error e → e = paramsTooManyError) := by
  constructor
  · by_cases hvt : o.verify = some .vTruthyOther
    · rw [UrlencodedParser_verify_error o hvt]
      simp [ctorSucceeds, hvt]
    · rw [UrlencodedParser_pass o hvt]
      by_cases hpl : (jsIsNaN (o.parameterLimit.getD (.fin 1000))
          || jsLtOne (o.parameterLimit.getD (.fin 1000))) = true
      · have hr : o.verify = some VerifyVal.vTruthyOther
            ∨ jsIsNaN (o.parameterLimit.getD (.fin 1000)) = true
            ∨ jsLtOne (o.parameterLimit.getD (.fin 1000)) = true := by
          rcases Bool.or_eq_true_iff.mp hpl with h' | h'
          · exact Or.inr (Or.inl h')
          · exact Or.inr (Or.inr h')
        by_cases hext : o.extended ≠ some false
        · rw [if_pos hext]
          unfold extendedparser
          rw [validateParameterLimit_error _ hpl]
          simpa [Except.map, ctorSucceeds] using hr
        · rw [if_neg hext]
          unfold simpleparser
          rw [validateParameterLimit_error _ hpl]
          simpa [Except.map, ctorSucceeds] using hr
      · rw [Bool.not_eq_true] at hpl
        have hr : ¬(o.verify = some VerifyVal.vTruthyOther
            ∨ jsIsNaN (o.parameterLimit.getD (.fin 1000)) = true
            ∨ jsLtOne (o.parameterLimit.getD (.fin 1000)) = true) := by
          rcases Bool.or_eq_false_iff.mp hpl with ⟨h1, h2⟩
          simp [hvt, h1, h2]
        by_cases hext : o.extended ≠ some false
        · rw [if_pos hext]
          unfold extendedparser
          rw [validateParameterLimit_ok _ hpl]
          simpa [Except.map, ctorSucceeds] using hr
        · rw [if_neg hext]
          unfold simpleparser
          rw [validateParameterLimit_ok _ hpl]
          simpa [Except.map, ctorSucceeds] using hr
  · intro b hb body e he
    obtain ⟨l, _, hshape⟩ := UrlencodedParser_built o b hb
    by_cases hext : o.extended ≠ some false
    · have hq : b.queryparse = extendedQueryparse l := by
        rw [hshape]
        simp [hext]
      rw [hq] at he
      exact extendedQueryparse_error_kind l body e he
    · have hq : b.queryparse = simpleQueryparse l := by
        rw [hshape]
        simp [hext]
      rw [hq] at he
      exact simpleQueryparse_error_kind l body e he

/-- Witness for C4's amended theorem: a decoder constructed with ceiling
1 fails on a two-pair body with exactly the 413 error. -/
theorem C4_validation_witness :
    UrlencodedParser sampleOptsPL1 = .ok sampleBuiltPL1
    ∧ sampleBuiltPL1.queryparse ['a', '&'] = .error paramsTooManyError
    ∧ paramsTooManyError = paramsTooManyError :=
  ⟨rfl, rfl,
    (C4_validation_amended sampleOptsPL1).2 sampleBuiltPL1 rfl
      ['a', '&'] paramsTooManyError rfl⟩

/-- Claim C9: strategy selection and defaults at construction. The
deprecation notice fires exactly when `extended` is absent; a
successfully built instance uses the extended decoder when `extended` is
true or absent and the simple decoder when it is false, in both cases
over the validated limit; an absent `parameterLimit` validates to the
default 1000; an absent `limit` resolves to `bytes.parse('100kb')`. -/
theorem C9_strategy_defaults (o : Options) (b : BuiltOpts)
    (hok : UrlencodedParser o = .ok b) :
    (firesDeprecationNotice o = true ↔ o.extended = none)
    ∧ (∃ l, validateParameterLimit o.parameterLimit = .ok l
        ∧ b.queryparse = (if o.extended ≠ some false then extendedQueryparse l
            else simpleQueryparse l)
        ∧ (o.parameterLimit = none → l = .fin 1000))
    ∧ (o.limit = none → b.parsedLimit = .bytesOf "100kb") := by
  obtain ⟨l, hval, hshape⟩ := UrlencodedParser_built o b hok
  refine ⟨?_, ⟨l, hval, ?_, ?_⟩, ?_⟩
  · unfold firesDeprecationNotice
    rcases o.extended with _ | e <;> simp
  · rw [hshape]
  · intro hpl
    rw [hpl] at hval
    have : validateParameterLimit none = .ok (.fin 1000) := rfl
    rw [this] at hval
    injection hval with h'
    exact h'.symm
  · intro hlim
    rw [hshape]
    simp [parsedLimitOf, hlim]

/-- Witness for C9 on empty options: the deprecation notice fires, the
extended decoder with ceiling 1000 is selected, and the size limit
defaults to `bytes.parse('100kb')`. -/
theorem C9_strategy_defaults_witness :
    UrlencodedParser {} = .ok sampleBuiltDefault
    ∧ firesDeprecationNotice {} = true
    ∧ sampleBuiltDefault.queryparse = extendedQueryparse (.fin 1000)
    ∧ sampleBuiltDefault.parsedLimit = .bytesOf "100kb" := by
  have h := C9_strategy_defaults {} sampleBuiltDefault rfl
  refine ⟨rfl, h.1.mpr rfl, ?_, h.2.2 rfl⟩
  obtain ⟨l, hval, hq, hd⟩ := h.2.1
  rw [hd rfl] at hq
  simpa using hq

/-- Claim C7: whenever the pre-scan yields a count, the extended decoder
delegates to `qs.parse` requesting unlimited nesting depth, permitting
prototype-like keys and bounding array growth by
`max(100, observedParameterCount)`, with the effective `parameterLimit`
passed along; the simple decoder delegates to `querystring.parse` with
the effective `parameterLimit` as `maxKeys`. -/
theorem C7_delegation_options (limit : JSNum) (body : List Char) (pc : Nat)
    (h : parameterCount body limit = some pc) :
    extendedQueryparse limit body =
      .ok (.qsParse body
        { allowPrototypes := true
          arrayLimit := max 100 (pc : Int)
          depth := .posInf
          parameterLimit := limit })
    ∧ simpleQueryparse limit body =
      .ok (.querystringParse body { maxKeys := limit }) :=
  ⟨extendedQueryparse_of_count _ _ _ h, simpleQueryparse_of_count _ _ _ h⟩

/-- Witness for C7 at ceiling 1000 and the body `a&b` (one separator, so
the array limit floor of 100 applies). -/
theorem C7_delegation_options_witness :
    parameterCount ['a', '&', 'b'] (.fin 1000) = some 1
    ∧ extendedQueryparse (.fin 1000) ['a', '&', 'b'] =
        .ok (.qsParse ['a', '&', 'b']
          { allowPrototypes := true, arrayLimit := 100
            depth := .posInf, parameterLimit := .fin 1000 })
    ∧ simpleQueryparse (.fin 1000) ['a', '&', 'b'] =
        .ok (.querystringParse ['a', '&', 'b'] { maxKeys := .fin 1000 }) :=
  ⟨by decide,
    (C7_delegation_options (.fin 1000) ['a', '&', 'b'] 1 (by decide)).1,
    (C7_delegation_options (.fin 1000) ['a', '&', 'b'] 1 (by decide)).2⟩

/-- Claim C5 is false in its final clause: the query decoders themselves,
applied to the empty string, do invoke the external parser — the
empty-body fast path lives in the orchestrator's reader callback, not in
`queryparse`. Both decoders at the default ceiling delegate the empty
body to their external parser (whose result is not the literal `{}`
fast-path object). -/
theorem C5_empty_body_counterexample :
    simpleQueryparse (.fin 1000) [] =
      .ok (.querystringParse [] { maxKeys := .fin 1000 })
    ∧ extendedQueryparse (.fin 1000) [] =
      .ok (.qsParse []
        { allowPrototypes := true, arrayLimit := 100
          depth := .posInf, parameterLimit := .fin 1000 })
    ∧ simpleQueryparse (.fin 1000) [] ≠ .ok .emptyMap := by
  refine ⟨rfl, rfl, ?_⟩
  intro h
  injection h with h'
  exact absurd h' (by decide)

/-- Claim C5 (amended): for every eligible request whose acquired body is
the empty byte string, the orchestrator attaches the literal empty
mapping and calls the success continuation without invoking `queryparse`
(hence without invoking the external key-value parser on that request);
the query decoder itself, however, does delegate the empty string to the
external parser when called directly. -/
theorem C5_empty_body_amended (self : BuiltOpts) (req : Req)
    (h1 : req._body = false) (h2 : req.hasBody = true)
    (h3 : req.typeMatches = true) (h4 : resolveCharset req = "utf-8") :
    createReader self req (.acquired []) =
      ({ req with body := some Mapping.emptyMap, _body := true }, .nextOk) := by
  rw [createReader_proceed self req _ h1 h2 h3 h4]
  unfold Reader
  simp

/-- Witness for C5's amended theorem on an eligible request with no
content-type header and an empty acquired body. -/
theorem C5_empty_body_witness :
    resolveCharset eligibleNoHeaderReq = "utf-8"
    ∧ createReader sampleBuiltDefault eligibleNoHeaderReq (.acquired []) =
        ({ eligibleNoHeaderReq with body := some Mapping.emptyMap, _body := true },
          .nextOk) :=
  ⟨rfl, C5_empty_body_amended sampleBuiltDefault eligibleNoHeaderReq
    rfl rfl rfl rfl⟩

/-- Claim C2 is false as stated for ineligible requests: on a request that
already carries a parsed body, the charset check never runs, so a
`latin1` charset is resolved but the success continuation is called with
no error and no 415 is raised. -/
theorem C2_charset_counterexample :
    resolveCharset alreadyParsedLatin1Req = "latin1"
    ∧ "latin1" ≠ "utf-8"
    ∧ createReader sampleBuiltDefault alreadyParsedLatin1Req
        (.acquired ['a']) =
        ({ alreadyParsedLatin1Req with body := some .emptyMap }, .nextOk) := by
  refine ⟨by decide, by decide, ?_⟩
  exact createReader_skip sampleBuiltDefault alreadyParsedLatin1Req
    (.acquired ['a']) (Or.inl rfl)

/-- Claim C2 (amended): charset resolution is total and yields `utf-8`
whenever the content-type header is absent/unparsable or carries no
charset parameter; and on every request passing the three eligibility
checks whose resolved charset differs from `utf-8`, the orchestrator
invokes the error continuation with the 415 `charset.unsupported` error
carrying the offending value and its uppercased form in the message, and
never proceeds to body acquisition (the result is the same for every
acquisition outcome). -/
theorem C2_charset_amended (req : Req) (self : BuiltOpts)
    (outcome : ReadOutcome)
    (h1 : req._body = false) (h2 : req.hasBody = true)
    (h3 : req.typeMatches = true) (h4 : resolveCharset req ≠ "utf-8") :
    (∀ r : Req, r.ctParse = .failed → resolveCharset r = "utf-8")
    ∧ (∀ r : Req, r.ctParse = .parsed none → resolveCharset r = "utf-8")
    ∧ createReader self req outcome =
        ({ req with body := some (req.body.getD .emptyMap) },
          .nextErr
            { status := 415
              message := "unsupported charset \""
                ++ jsToUpper (resolveCharset req) ++ "\""
              type := "charset.unsupported"
              charset := some (resolveCharset req) }) := by
  refine ⟨?_, ?_, ?_⟩
  · intro r hr
    simp [resolveCharset, getCharset, hr, jsOrString]
  · intro r hr
    simp [resolveCharset, getCharset, hr]
    decide
  · exact createReader_badCharset self req outcome h1 h2 h3 h4

/-- Witness for C2's amended theorem on an eligible request declaring
`charset=latin1`. -/
theorem C2_charset_witness :
    resolveCharset eligibleLatin1Req = "latin1"
    ∧ createReader sampleBuiltDefault eligibleLatin1Req (.acquired ['a']) =
        ({ eligibleLatin1Req with body := some .emptyMap },
          .nextErr
            { status := 415
              message := "unsupported charset \"LATIN1\""
              type := "charset.unsupported"
              charset := some "latin1" }) := by
  have h := (C2_charset_amended eligibleLatin1Req sampleBuiltDefault
    (.acquired ['a']) rfl rfl rfl (by decide)).2.2
  refine ⟨by decide, ?_⟩
  rw [h]
  decide

/-- Claim C3: on every request-fatal error — unsupported charset, reader
failure, or parameter-count overflow — the error is routed to the error
continuation and the request's body field holds only the
`req.body || {}` placeholder, never a decoder result: when the body was
previously unset it is the empty mapping, and attachment is
all-or-nothing. -/
theorem C3_all_or_nothing (self : BuiltOpts) (req : Req)
    (outcome : ReadOutcome) (req' : Req) (e : HttpError)
    (h : createReader self req outcome = (req', .nextErr e)) :
    req'.body = some (req.body.getD .emptyMap)
    ∧ (req.body = none → req'.body = some .emptyMap) := by
  have hb := createReader_error_no_attach self req outcome req' e h
  refine ⟨hb, fun hn => ?_⟩
  rw [hb, hn]
  rfl

/-- Witness for C3 on an eligible request whose acquisition fails with a
reader error: the error is forwarded and the body stays the empty
placeholder. -/
theorem C3_all_or_nothing_witness :
    createReader sampleBuiltDefault eligibleNoHeaderReq
        (.failed sampleReaderError) =
      (eligibleNoHeaderReqInit, .nextErr sampleReaderError)
    ∧ eligibleNoHeaderReqInit.body = some .emptyMap := by
  refine ⟨by decide, ?_⟩
  exact (C3_all_or_nothing sampleBuiltDefault eligibleNoHeaderReq
    (.failed sampleReaderError) eligibleNoHeaderReqInit sampleReaderError
    (by decide)).2 rfl

/-- Claim C6: on every eligibility skip — in particular on a request that
already carries a decoded body — the middleware calls the success
continuation with no error and leaves the body field exactly as
`req.body || {}`: a pre-existing body value is never overwritten, and an
unset body field is left as the empty-mapping placeholder. -/
theorem C6_idempotent_skip (self : BuiltOpts) (req : Req)
    (outcome : ReadOutcome)
    (h : req._body = true ∨ req.hasBody = false ∨ req.typeMatches = false) :
    createReader self req outcome =
      ({ req with body := some (req.body.getD .emptyMap) }, .nextOk)
    ∧ (∀ m, req.body = some m →
        ({ req with body := some (req.body.getD .emptyMap) } : Req).body
          = some m)
    ∧ (req.body = none →
        ({ req with body := some (req.body.getD .emptyMap) } : Req).body
          = some .emptyMap) := by
  refine ⟨createReader_skip self req outcome h, ?_, ?_⟩
  · intro m hm
    simp [hm]
  · intro hn
    simp [hn]

/-- Witness for C6 on an already-parsed request carrying a body: the
existing body survives unchanged and the continuation sees no error. -/
theorem C6_idempotent_skip_witness :
    createReader sampleBuiltDefault alreadyParsedReq (.acquired ['a']) =
      (alreadyParsedReq, .nextOk)
    ∧ alreadyParsedReq.body = some sampleMapping := by
  have h := C6_idempotent_skip sampleBuiltDefault alreadyParsedReq
    (.acquired ['a']) (Or.inl rfl)
  refine ⟨?_, rfl⟩
  rw [h.1]
  decide

/-- Claim C8: the eligibility checks run in order with short-circuiting —
already-parsed body, then bodiless request, then media-type mismatch —
each failing check producing a success-skip, and only a request passing
all three reaches the charset check, where a bad charset produces the
415 error and a good one proceeds to the reader. -/
theorem C8_eligibility_order (req : Req) (charset : String)
    (self : BuiltOpts) (outcome : ReadOutcome) :
    (checkParse req charset = .skipAlreadyParsed ↔ req._body = true)
    ∧ (checkParse req charset = .skipEmptyBody ↔
        (req._body = false ∧ req.hasBody = false))
    ∧ (checkParse req charset = .skipShouldNotParse ↔
        (req._body = false ∧ req.hasBody = true ∧ req.typeMatches = false))
    ∧ (checkParse req charset = .invalidCharset charset ↔
        (req._body = false ∧ req.hasBody = true ∧ req.typeMatches = true
          ∧ charset ≠ "utf-8"))
    ∧ (checkParse req charset = .proceed ↔
        (req._body = false ∧ req.hasBody = true ∧ req.typeMatches = true
          ∧ charset = "utf-8"))
    ∧ (req._body = true ∨ req.hasBody = false ∨ req.typeMatches = false →
        createReader self req outcome =
          ({ req with body := some (req.body.getD .emptyMap) }, .nextOk)) := by
  refine ⟨?_, ?_, ?_, ?_, ?_, fun h => createReader_skip self req outcome h⟩ <;>
  · unfold checkParse
    by_cases h1 : req._body <;> by_cases h2 : req.hasBody <;>
      by_cases h3 : req.typeMatches <;> by_cases h4 : charset = "utf-8" <;>
      simp [h1, h2, h3, h4]

/-- Witness for C8: a request passing the first two checks but failing
the media-type check is success-skipped. -/
theorem C8_eligibility_order_witness :
    checkParse alreadyParsedReq "utf-8" = .skipAlreadyParsed
    ∧ createReader sampleBuiltDefault alreadyParsedReq (.acquired []) =
        ({ alreadyParsedReq with
            body := some (alreadyParsedReq.body.getD .emptyMap) }, .nextOk) := by
  have h := C8_eligibility_order alreadyParsedReq "utf-8" sampleBuiltDefault
    (.acquired [])
  exact ⟨h.1.mpr rfl, h.2.2.2.2.2 (Or.inl rfl)⟩
